import Mathlib

/-!
Verification of the `virtualfs` rclone backend (metadata-indexed content
cache with tombstone-based deletion signaling).

The repository contains two variants of the backend:
 * `src/unnamed/part_000` — compare-before-write `Put`, single-pass
   tee-reader hashing, transactional `ensureDirectoryStructure`;
 * `src/backend/virtualfs/virtualfs.go` — unconditional-overwrite `Put`,
   hash taken from the source object, non-transactional
   `ensureDirectoryStructure`.

Shared code (the `files` table, `NewObject`, `List`, `Rmdir`,
`Object.Remove`, `Object.Size`) is modelled once; where the two variants
differ the `part_000` function keeps the source name (`Put`, `Update`,
`ensureDirectoryStructure`) and the `virtualfs.go` function carries a `B`
suffix (`PutB`, `UpdateB`, `ensureDirectoryStructureB`).

Modelling conventions:
 * the SQLite `files` table is an association list in rowid order:
   `INSERT OR REPLACE` deletes the old row and appends (fresh rowid),
   `UPDATE` rewrites in place, `SELECT ... WHERE` is a filter in rowid
   order (no ORDER BY appears in the source);
 * timestamps are integers counting nanoseconds; `Format(time.RFC3339)`
   keeps whole seconds only, so storing a time truncates it with
   `rfc3339Trunc` and `time.Parse` returns the truncated instant;
 * the MD5 primitive is external to the repository and is passed in as an
   abstract digest function `md5 : List Nat → String` over the byte
   stream; `hash.NewMultiHasherTypes` + `io.TeeReader` + `Sums()[MD5]`
   computes `md5` of exactly the bytes copied to the file;
 * `oracle : String → Bool` models per-statement SQLite INSERT failure
   (`true` = the INSERT for that key errors), used to express the
   transaction semantics of `ensureDirectoryStructure`;
 * the content filesystem is a map from (root-relative) paths to byte
   lists plus a set of directories; `os.Create` truncates, `io.Copy`
   writes the bytes the incoming stream delivers before failing (if it
   fails); `os.MkdirAll` and `os.Create` failures simply abort earlier
   than the failures that are modelled and are not represented;
 * SQLite `LIKE p || '/%'` is modelled as a literal byte prefix test
   (ASCII case folding and embedded wildcard characters play no role for
   the slash-separated paths considered here).
-/

/-- One reconciliation candidate's bytes: the bytes the reader delivers,
and whether the reader then fails (`io.Copy` returns an error after
writing exactly `bytes`). -/
structure InStream where
  bytes : List Nat
  fail : Bool
deriving Repr, DecidableEq

/-- Nanoseconds per second. -/
def nsPerSec : Int := 1000000000

/-- Storing a `time.Time` with `Format(time.RFC3339)` keeps whole seconds
only; reading it back with `time.Parse(time.RFC3339)` therefore yields
the instant truncated (floored) to the second. -/
def rfc3339Trunc (t : Int) : Int := (t.fdiv nsPerSec) * nsPerSec

/-- Is `pre` a literal prefix of `s` (character lists)? -/
def leadsChars : List Char → List Char → Bool
  | [], _ => true
  | _ :: _, [] => false
  | a :: as, b :: bs => decide (a = b) && leadsChars as bs

/-- Is `pre` a literal prefix of `s`?  Models SQLite `LIKE pre || '%'`
on the exact slash paths used by the backend. -/
def strLeads (pre s : String) : Bool := leadsChars pre.data s.data

/-- Does the character list contain a path separator? -/
def hasSlash (cs : List Char) : Bool := cs.any (fun c => decide (c = '/'))

/-- Does the path contain a separator? Models SQLite `LIKE '%/%'`. -/
def containsSlash (s : String) : Bool := hasSlash s.data

/-- Go `path.Dir` on the clean slash-separated relative paths the backend
stores: everything before the last separator, and `"."` when there is no
separator (`path.Clean` is the identity on these paths). -/
def dirChars (cs : List Char) : List Char :=
  if hasSlash cs then ((cs.reverse.dropWhile (fun c => !(decide (c = '/')))).drop 1).reverse
  else ['.']

/-- Go `path.Dir` on strings. -/
def dirOfStr (s : String) : String := ⟨dirChars s.data⟩

/-- Go `strings.Split(s, "/")`, accumulator form. -/
def splitSlashAux : List Char → List Char → List (List Char)
  | [], acc => [acc.reverse]
  | c :: cs, acc =>
      if c = '/' then acc.reverse :: splitSlashAux cs [] else splitSlashAux cs (c :: acc)

/-- Go `strings.Split(s, "/")`. -/
def splitSlash (s : String) : List String :=
  (splitSlashAux s.data []).map (fun cs => ⟨cs⟩)

/-- Go `path.Join(cur, part)` for the accumulating join inside
`ensureDirectoryStructure` (`cur` empty yields `part`; `path.Clean` is
the identity on the clean segments produced by `path.Dir`). -/
def goJoin (cur part : String) : String :=
  if cur = "" then part else cur ++ "/" ++ part

/-- A row of the `files` table (all columns except the `remote` key). -/
structure FileRecord where
  size : Int
  modTime : Int
  hasHash : Bool
  hash : String
  deleted : Bool
  isDir : Bool
deriving Repr, DecidableEq

/-- The `files` table: rows in rowid order, keyed by `remote`. -/
abbrev DB := List (String × FileRecord)

/-- SELECT by primary key: first row whose key matches. -/
def dbGet : DB → String → Option FileRecord
  | [], _ => none
  | (q, r) :: rest, p => if q = p then some r else dbGet rest p

/-- SQL `INSERT OR IGNORE`: keep the table unchanged when the key exists,
otherwise append the new row (fresh rowid). -/
def dbInsertIgnore (db : DB) (p : String) (r : FileRecord) : DB :=
  match dbGet db p with
  | some _ => db
  | none => db ++ [(p, r)]

/-- SQL `INSERT OR REPLACE`: drop any row with the key, append the new row
(replacement allocates a fresh rowid, so the row moves to the end). -/
def dbUpsert (db : DB) (p : String) (r : FileRecord) : DB :=
  db.filter (fun e => decide (e.1 ≠ p)) ++ [(p, r)]

/-- SQL `UPDATE files SET deleted = 1, mod_time = ? WHERE remote = ?`
(in-place, other columns untouched). -/
def dbSetDeleted (db : DB) (p : String) (t : Int) : DB :=
  db.map (fun e => if e.1 = p then (e.1, { e.2 with deleted := true, modTime := t }) else e)

/-- SQL `UPDATE files SET size = ?, mod_time = ?, has_hash = ?, hash = ?,
deleted = 0, is_dir = 0 WHERE remote = ?` (in-place). -/
def dbUpdateContent (db : DB) (p : String) (r : FileRecord) : DB :=
  db.map (fun e => if e.1 = p then (e.1, r) else e)

/-- SQL `DELETE FROM files WHERE remote = ? AND is_dir = 1`. -/
def dbDeleteDirRow (db : DB) (p : String) : DB :=
  db.filter (fun e => !(decide (e.1 = p) && e.2.isDir))

/-- The content filesystem under the configured root: file contents by
(root-relative) path, plus the set of directories that exist. -/
structure ContentFS where
  files : List (String × List Nat)
  dirs : List String
deriving Repr, DecidableEq

/-- Content of the file at `p`, if present. -/
def lookupFile (cfs : ContentFS) (p : String) : Option (List Nat) :=
  (cfs.files.find? (fun e => decide (e.1 = p))).map (fun e => e.2)

/-- Write (create or truncate + write) the file at `p`. -/
def setFile (cfs : ContentFS) (p : String) (bs : List Nat) : ContentFS :=
  { cfs with files := (p, bs) :: cfs.files.filter (fun e => decide (e.1 ≠ p)) }

/-- Remove the file at `p` (no effect when absent). -/
def eraseFile (cfs : ContentFS) (p : String) : ContentFS :=
  { cfs with files := cfs.files.filter (fun e => decide (e.1 ≠ p)) }

/-- Does the directory `p` exist? -/
def hasDir (cfs : ContentFS) (p : String) : Bool :=
  cfs.dirs.any (fun d => decide (d = p))

/-- Is anything (file or directory) stored strictly under directory `p`? -/
def cfsHasChildren (cfs : ContentFS) (p : String) : Bool :=
  cfs.files.any (fun e => strLeads (p ++ "/") e.1) ||
    cfs.dirs.any (fun d => strLeads (p ++ "/") d)

/-- Go `os.MkdirAll` for the parent chain of a path: record the directory
(and, through repeated calls, its ancestors) as existing. -/
def mkdirAll (cfs : ContentFS) (p : String) : ContentFS :=
  if hasDir cfs p then cfs else { cfs with dirs := p :: cfs.dirs }

/-- Remove the directory `p` from the set of existing directories. -/
def dropDir (cfs : ContentFS) (p : String) : ContentFS :=
  { cfs with dirs := cfs.dirs.filter (fun d => decide (d ≠ p)) }

/-- Outcome of Go `os.Remove`. -/
inductive RmOut where
  | notExist
  | busy
  | removed (cfs : ContentFS)
deriving Repr, DecidableEq

/-- Go `os.Remove`: removes a plain file, or an empty directory; reports
`notExist` when nothing is at the path and an error (`busy`) for a
non-empty directory. -/
def osRemove (cfs : ContentFS) (p : String) : RmOut :=
  if (lookupFile cfs p).isSome then .removed (eraseFile cfs p)
  else if hasDir cfs p then
    if cfsHasChildren cfs p then .busy else .removed (dropDir cfs p)
  else .notExist

/-- Error kinds surfaced by the backend. -/
inductive Err where
  | objectNotFound
  | dirNotFound
  | notEmpty
  | ioError
  | storeError
deriving Repr, DecidableEq

/-- The in-memory `Object` struct. -/
structure Object where
  remote : String
  size : Int
  modTime : Int
  hasHash : Bool
  hash : String
  deleted : Bool
  isDir : Bool
deriving Repr, DecidableEq

/-- Method `Object.Size`: a tombstoned object reports size 0. -/
def objSize (o : Object) : Int := if o.deleted then 0 else o.size

/-- Build the `Object` that `NewObject` scans out of a row. -/
def recToObj (p : String) (r : FileRecord) : Object :=
  { remote := p, size := r.size, modTime := r.modTime, hasHash := r.hasHash,
    hash := r.hash, deleted := r.deleted, isDir := r.isDir }

/-- The combined state the backend mutates: `files` table plus content
filesystem. -/
structure FsState where
  db : DB
  cfs : ContentFS
deriving Repr, DecidableEq

deriving instance DecidableEq for Except

/-- Result of one backend operation: the Go return value, the state it
leaves behind, and whether the content-write path (`os.Create` +
`io.Copy`) executed. -/
structure OpResult (α : Type) where
  res : Except Err α
  st : FsState
  wrote : Bool
deriving Repr, DecidableEq

/-- The candidate `src fs.ObjectInfo` handed to `Put`/`Update`:
`src.Remote()`, `src.Size()`, `src.ModTime(ctx)`, whether
`src.Fs().Hashes().Contains(hash.MD5)` (the local side always supports
MD5 because `Fs.Hashes()` returns the MD5 set), and the pair returned by
`src.Hash(ctx, hash.MD5)` (value, error). -/
structure SrcInfo where
  remote : String
  size : Int
  modTime : Int
  srcSupportsMD5 : Bool
  srcHashVal : String
  srcHashErr : Bool
deriving Repr, DecidableEq

/-- Method `Fs.NewObject` (identical in both variants): scan the row for the
path; no row, a tombstoned row, or a directory row yield
`fs.ErrorObjectNotFound`. -/
def NewObject (db : DB) (remote : String) : Except Err Object :=
  match dbGet db remote with
  | none => .error .objectNotFound
  | some r =>
      if r.deleted || r.isDir then .error .objectNotFound
      else .ok (recToObj remote r)

/-- Method `Fs.List` (identical in both variants): for `dir = ""` the SQL selects
non-deleted rows with no separator; otherwise rows `LIKE dir || '/%'`,
still non-deleted; the Go loop then keeps a row only when `dir` is empty
or `path.Dir(row.remote) == dir`.  Directory rows become `fs.Dir` entries
and file rows become `Object`s; the model returns the kept rows. -/
def listDir (db : DB) (dir : String) : List (String × FileRecord) :=
  let rows :=
    if dir = "" then db.filter (fun e => !containsSlash e.1 && !e.2.deleted)
    else db.filter (fun e => strLeads (dir ++ "/") e.1 && !e.2.deleted)
  rows.filter (fun e => decide (dir = "") || decide (dirOfStr e.1 = dir))

/-- The directory under which the outer driver would list a path: its
`path.Dir` when it has a separator, the root listing otherwise. -/
def listParent (p : String) : String := if containsSlash p then dirOfStr p else ""

/-- The synthetic directory row `ensureDirectoryStructure` inserts:
`(remote, 0, now, 0, '', 0, 1)`. -/
def dirRecord (now : Int) : FileRecord :=
  { size := 0, modTime := rfc3339Trunc now, hasHash := false, hash := "",
    deleted := false, isDir := true }

/-- The insertion loop shared by both variants of
`ensureDirectoryStructure`: walk the separator-split parts of
`path.Dir(remote)` shallow to deep, skipping empty parts, accumulating
the joined path, and `INSERT OR IGNORE` a directory row for each; stop
with `false` when the INSERT for a path fails (per `oracle`). -/
def insertDirsLoop (oracle : String → Bool) (now : Int) :
    List String → String → DB → Bool × DB
  | [], _, db => (true, db)
  | part :: rest, cur, db =>
      if part = "" then insertDirsLoop oracle now rest cur db
      else
        let cp := goJoin cur part
        if oracle cp then (false, db)
        else insertDirsLoop oracle now rest cp (dbInsertIgnore db cp (dirRecord now))

/-- The ancestor paths one call materializes, in insertion order. -/
def chainPaths : List String → String → List String
  | [], _ => []
  | part :: rest, cur =>
      if part = "" then chainPaths rest cur
      else goJoin cur part :: chainPaths rest (goJoin cur part)

/-- Method `Fs.ensureDirectoryStructure`, `part_000` variant: the loop runs
inside one transaction (`tx.Begin` … `tx.Commit`, with a deferred
rollback), so a failing INSERT aborts the call and leaves the table
exactly as it was. -/
def ensureDirectoryStructure (oracle : String → Bool) (now : Int)
    (db : DB) (remote : String) : Bool × DB :=
  let out := insertDirsLoop oracle now (splitSlash (dirOfStr remote)) "" db
  if out.1 then (true, out.2) else (false, db)

/-- Method `Fs.ensureDirectoryStructure`, `virtualfs.go` variant: each INSERT is
an individual `f.db.Exec`; a failure partway returns the error but the
rows inserted before it stay committed. -/
def ensureDirectoryStructureB (oracle : String → Bool) (now : Int)
    (db : DB) (remote : String) : Bool × DB :=
  insertDirsLoop oracle now (splitSlash (dirOfStr remote)) "" db

/-- The row `Put` upserts on its write path: the size counted and the
digest computed by the single `io.Copy` pass, the source's modTime as
persisted by RFC3339 formatting, `deleted = 0`, `is_dir = 0`. -/
def putNewRecord (md5 : List Nat → String) (src : SrcInfo) (stream : InStream) : FileRecord :=
  { size := (stream.bytes.length : Int), modTime := rfc3339Trunc src.modTime,
    hasHash := decide (md5 stream.bytes ≠ ""), hash := md5 stream.bytes,
    deleted := false, isDir := false }

/-- The skip decision of `part_000`'s `Put` against an existing live
object: update when `src.Size() != existingObj.Size()`, or the modTimes
are not `Equal`, or the source side supports MD5 and `src.Hash(MD5)`
differs from the stored raw `hash` field; otherwise skip. -/
def putShouldWrite (existing : Object) (src : SrcInfo) : Bool :=
  if src.size ≠ objSize existing then true
  else if src.modTime ≠ existing.modTime then true
  else if src.srcSupportsMD5 && decide (src.srcHashVal ≠ existing.hash) then true
  else false

/-- The shared content-write tail of `part_000`'s `Put` (steps after the
skip decision): `ensureDirectoryStructure`, `os.MkdirAll`, `os.Create`,
`io.Copy` through a `TeeReader` into the MD5 multi-hasher, then
`INSERT OR REPLACE` of the freshly computed size/hash with the source's
modTime, `deleted = 0`, `is_dir = 0`. -/
def putWrite (md5 : List Nat → String) (oracle : String → Bool) (now : Int)
    (st : FsState) (src : SrcInfo) (stream : InStream) : OpResult Object :=
  match ensureDirectoryStructure oracle now st.db src.remote with
  | (false, _) => { res := .error .storeError, st := st, wrote := false }
  | (true, db1) =>
      let cfs1 := mkdirAll st.cfs (dirOfStr src.remote)
      let cfs2 := setFile cfs1 src.remote stream.bytes
      if stream.fail then
        { res := .error .ioError, st := { db := db1, cfs := cfs2 }, wrote := true }
      else
        let size : Int := stream.bytes.length
        let hashSum := md5 stream.bytes
        let hasHash := decide (hashSum ≠ "")
        if oracle src.remote then
          { res := .error .storeError, st := { db := db1, cfs := cfs2 }, wrote := true }
        else
          { res := .ok { remote := src.remote, size := size, modTime := src.modTime,
                         hasHash := hasHash, hash := hashSum, deleted := false, isDir := false },
            st := { db := dbUpsert db1 src.remote (putNewRecord md5 src stream), cfs := cfs2 },
            wrote := true }

/-- Method `Fs.Put`, `part_000` variant: look up the existing object; when it
exists compare `src.Size()` with `existingObj.Size()`, `src.ModTime` with
the stored (RFC3339-parsed) modTime, and — when the source side supports
MD5 — `src.Hash(MD5)` with the stored raw `hash` field; when nothing
differs return the existing object unchanged with no content I/O,
otherwise run the content-write tail. -/
def Put (md5 : List Nat → String) (oracle : String → Bool) (now : Int)
    (st : FsState) (src : SrcInfo) (stream : InStream) : OpResult Object :=
  match NewObject st.db src.remote with
  | .error e =>
      if e = .objectNotFound then putWrite md5 oracle now st src stream
      else { res := .error e, st := st, wrote := false }
  | .ok existing =>
      if putShouldWrite existing src then putWrite md5 oracle now st src stream
      else { res := .ok existing, st := st, wrote := false }

/-- Method `Fs.Put`, `virtualfs.go` variant: no comparison against the stored
row — it always materializes directories, creates the file, copies the
content with no tee-hasher, then takes the hash from
`src.Hash(ctx, hash.MD5)` (kept only when there is no error and it is
non-empty) and upserts the row. -/
def PutB (_md5 : List Nat → String) (oracle : String → Bool) (now : Int)
    (st : FsState) (src : SrcInfo) (stream : InStream) : OpResult Object :=
  match ensureDirectoryStructureB oracle now st.db src.remote with
  | (false, db1) => { res := .error .storeError, st := { db := db1, cfs := st.cfs }, wrote := false }
  | (true, db1) =>
      let cfs1 := mkdirAll st.cfs (dirOfStr src.remote)
      let cfs2 := setFile cfs1 src.remote stream.bytes
      if stream.fail then
        { res := .error .ioError, st := { db := db1, cfs := cfs2 }, wrote := true }
      else
        let size : Int := stream.bytes.length
        let hashSum :=
          if !src.srcHashErr && decide (src.srcHashVal ≠ "") then src.srcHashVal else ""
        if oracle src.remote then
          { res := .error .storeError, st := { db := db1, cfs := cfs2 }, wrote := true }
        else
          let newRec : FileRecord :=
            { size := size, modTime := rfc3339Trunc src.modTime,
              hasHash := decide (hashSum ≠ ""), hash := hashSum,
              deleted := false, isDir := false }
          { res := .ok { remote := src.remote, size := size, modTime := src.modTime,
                         hasHash := decide (hashSum ≠ ""), hash := hashSum,
                         deleted := false, isDir := false },
            st := { db := dbUpsert db1 src.remote newRec, cfs := cfs2 },
            wrote := true }

/-- The skip decision of `Object.Update`, `part_000` variant, exactly as
written: start from `shouldUpdate = true`; when `o.size == src.Size()`
and (`!srcSupportsMD5 || src hash == o.hash`) and the modTimes are NOT
equal, set `shouldUpdate = false`. -/
def updateShouldWrite (o : Object) (src : SrcInfo) : Bool :=
  if o.size = src.size then
    if !src.srcSupportsMD5 || decide (src.srcHashVal = o.hash) then
      if src.modTime ≠ o.modTime then false else true
    else true
  else true

/-- Method `Object.Update`, `part_000` variant: apply the (inverted) skip
decision; on the write path `os.MkdirAll`, `os.Create`, `io.Copy`
through the MD5 tee-hasher, then `UPDATE` of the row with the computed
size/hash, the source's modTime, `deleted = 0`, `is_dir = 0`, and mutate
the in-memory object the same way. -/
def Update (md5 : List Nat → String) (oracle : String → Bool)
    (st : FsState) (o : Object) (src : SrcInfo) (stream : InStream) : OpResult Object :=
  if updateShouldWrite o src then
    let cfs1 := mkdirAll st.cfs (dirOfStr o.remote)
    let cfs2 := setFile cfs1 o.remote stream.bytes
    if stream.fail then
      { res := .error .ioError, st := { db := st.db, cfs := cfs2 }, wrote := true }
    else
      let size : Int := stream.bytes.length
      let hashSum := md5 stream.bytes
      let hasHash := decide (hashSum ≠ "")
      if oracle o.remote then
        { res := .error .storeError, st := { db := st.db, cfs := cfs2 }, wrote := true }
      else
        let newRec : FileRecord :=
          { size := size, modTime := rfc3339Trunc src.modTime, hasHash := hasHash,
            hash := hashSum, deleted := false, isDir := false }
        { res := .ok { o with size := size, modTime := src.modTime, hasHash := hasHash,
                              hash := hashSum, deleted := false, isDir := false },
          st := { db := dbUpdateContent st.db o.remote newRec, cfs := cfs2 },
          wrote := true }
  else { res := .ok o, st := st, wrote := false }

/-- Method `Object.Update`, `virtualfs.go` variant: no skip decision; copies the
content through a `hash.NewMultiHasher()` tee whose digest is computed
and then never read, and stores instead the hash reported by
`src.Hash(ctx, hash.MD5)` (emptied on error). -/
def UpdateB (md5 : List Nat → String) (oracle : String → Bool)
    (st : FsState) (o : Object) (src : SrcInfo) (stream : InStream) : OpResult Object :=
  let cfs1 := mkdirAll st.cfs (dirOfStr o.remote)
  let cfs2 := setFile cfs1 o.remote stream.bytes
  let _discardedTeeDigest := md5 stream.bytes
  if stream.fail then
    { res := .error .ioError, st := { db := st.db, cfs := cfs2 }, wrote := true }
  else
    let size : Int := stream.bytes.length
    let hashSum := if src.srcHashErr then "" else src.srcHashVal
    if oracle o.remote then
      { res := .error .storeError, st := { db := st.db, cfs := cfs2 }, wrote := true }
    else
      let newRec : FileRecord :=
        { size := size, modTime := rfc3339Trunc src.modTime,
          hasHash := decide (hashSum ≠ ""), hash := hashSum,
          deleted := false, isDir := false }
      { res := .ok { o with size := size, modTime := src.modTime,
                            hasHash := decide (hashSum ≠ ""), hash := hashSum,
                            deleted := false, isDir := false },
        st := { db := dbUpdateContent st.db o.remote newRec, cfs := cfs2 },
        wrote := true }

/-- Method `Object.Remove` (`part_000`; tombstone creation): remove the content
file (absence tolerated), create the zero-byte `remote + ".delete"`
marker, then `UPDATE files SET deleted = 1, mod_time = now`; the
in-memory object is flagged deleted.  Failure paths (non-`IsNotExist`
removal errors, marker-creation errors) abort before the UPDATE and are
not modelled. -/
def Remove (now : Int) (st : FsState) (o : Object) : Object × FsState :=
  let cfs1 := eraseFile st.cfs o.remote
  let cfs2 := setFile cfs1 (o.remote ++ ".delete") []
  ({ o with deleted := true },
   { db := dbSetDeleted st.db o.remote (rfc3339Trunc now), cfs := cfs2 })

/-- Method `Fs.Rmdir` (identical in both variants): first `os.Remove` the
content directory (`notExist` maps to `fs.ErrorDirNotFound`, other
errors are returned); only then count the non-deleted rows
`LIKE dir || '/%'` other than `dir` itself, failing with
"directory not empty" when positive, and otherwise
`DELETE FROM files WHERE remote = dir AND is_dir = 1`. -/
def Rmdir (st : FsState) (dir : String) : OpResult Unit :=
  match osRemove st.cfs dir with
  | .notExist => { res := .error .dirNotFound, st := st, wrote := false }
  | .busy => { res := .error .ioError, st := st, wrote := false }
  | .removed cfs1 =>
      let cnt :=
        (st.db.filter (fun e =>
          strLeads (dir ++ "/") e.1 && decide (e.1 ≠ dir) && !e.2.deleted)).length
      if 0 < cnt then
        { res := .error .notEmpty, st := { db := st.db, cfs := cfs1 }, wrote := false }
      else
        { res := .ok (), st := { db := dbDeleteDirRow st.db dir, cfs := cfs1 }, wrote := false }

/-! Concrete inputs used by the closed theorems and witnesses. -/

/-- A concrete stand-in for the external MD5 primitive (any digest
function works; the claims quantify over it or instantiate it). -/
def md5c (bs : List Nat) : String := "#" ++ toString bs.length

/-- The oracle under which no metadata INSERT fails. -/
def noFail : String → Bool := fun _ => false

/-- The oracle under which exactly the INSERT for key `a/b` fails. -/
def failAB : String → Bool := fun s => decide (s = "a/b")

/-- Empty starting state. -/
def emptySt : FsState := { db := [], cfs := { files := [], dirs := [] } }

/-- Candidate at path `a` with a sub-second modTime (1ns past the epoch). -/
def srcSub : SrcInfo :=
  { remote := "a", size := 3, modTime := 1, srcSupportsMD5 := true,
    srcHashVal := "#3", srcHashErr := false }

/-- The same candidate with a whole-second modTime. -/
def srcAligned : SrcInfo := { srcSub with modTime := 2000000000 }

/-- Three bytes of content for path `a`. -/
def streamA : InStream := { bytes := [1, 2, 3], fail := false }

/-- In-memory object for the inverted-guard Update experiment. -/
def oInv : Object :=
  { remote := "c", size := 5, modTime := 10000000000, hasHash := true,
    hash := "h", deleted := false, isDir := false }

/-- Candidate differing from `oInv` only in modTime (20s vs 10s). -/
def srcInv : SrcInfo :=
  { remote := "c", size := 5, modTime := 20000000000, srcSupportsMD5 := true,
    srcHashVal := "h", srcHashErr := false }

/-- Candidate identical to `oInv` in size, hash and modTime. -/
def srcSame : SrcInfo := { srcInv with modTime := 10000000000 }

/-- State holding the record behind `oInv`. -/
def stInv : FsState :=
  { db := [("c", { size := 5, modTime := 10000000000, hasHash := true, hash := "h",
                   deleted := false, isDir := false })],
    cfs := { files := [("c", [9, 9, 9, 9, 9])], dirs := [] } }

/-- Five fresh bytes for the Update experiments. -/
def streamInv : InStream := { bytes := [8, 8, 8, 8, 8], fail := false }

/-- A source that reports the digest `deadbeef` for content whose actual
bytes digest differently. -/
def srcRep : SrcInfo :=
  { remote := "b", size := 2, modTime := 0, srcSupportsMD5 := true,
    srcHashVal := "deadbeef", srcHashErr := false }

/-- The two bytes actually streamed for path `b`. -/
def streamB : InStream := { bytes := [7, 7], fail := false }

/-- In-memory object for path `b`. -/
def oB : Object :=
  { remote := "b", size := 2, modTime := 0, hasHash := true, hash := "old",
    deleted := false, isDir := false }

/-- State holding the record behind `oB`. -/
def stB : FsState :=
  { db := [("b", { size := 2, modTime := 0, hasHash := true, hash := "old",
                   deleted := false, isDir := false })],
    cfs := { files := [], dirs := [] } }

/-- A stream that fails after delivering one byte. -/
def streamFail : InStream := { bytes := [4], fail := true }

/-- Record stored at path `w` before a failing write. -/
def recW : FileRecord :=
  { size := 6, modTime := 11, hasHash := true, hash := "hw", deleted := false, isDir := false }

/-- State holding `recW` at `w`. -/
def stW : FsState := { db := [("w", recW)], cfs := { files := [("w", [1])], dirs := [] } }

/-- Candidate at `w` for the failing write. -/
def srcW : SrcInfo :=
  { remote := "w", size := 1, modTime := 99, srcSupportsMD5 := true,
    srcHashVal := "zz", srcHashErr := false }

/-- In-memory object for path `w`. -/
def oW : Object := recToObj "w" recW

/-- Record stored at path `x` before tombstoning. -/
def recX : FileRecord :=
  { size := 9, modTime := 0, hasHash := true, hash := "H", deleted := false, isDir := false }

/-- State holding `recX` at `x` with its content present. -/
def stX : FsState := { db := [("x", recX)], cfs := { files := [("x", [1, 2])], dirs := [] } }

/-- In-memory object for path `x`. -/
def oX : Object := recToObj "x" recX

/-- Tombstoned record at path `t/u`. -/
def recT : FileRecord :=
  { size := 4, modTime := 7, hasHash := true, hash := "old", deleted := true, isDir := false }

/-- State with directory row `t` and tombstoned row `t/u`. -/
def stT : FsState :=
  { db := [("t", dirRecord 0), ("t/u", recT)], cfs := { files := [], dirs := [] } }

/-- New content for the tombstoned path `t/u`. -/
def srcT : SrcInfo :=
  { remote := "t/u", size := 2, modTime := 3000000000, srcSupportsMD5 := true,
    srcHashVal := "#2", srcHashErr := false }

/-- Two bytes of new content for `t/u`. -/
def streamT : InStream := { bytes := [5, 5], fail := false }

/-- Directory row used by the listing example. -/
def recA : FileRecord := dirRecord 0

/-- Directory row `a/b` of the listing example. -/
def recAB : FileRecord := dirRecord 0

/-- File row `a/b/c` of the listing example. -/
def recABC : FileRecord :=
  { size := 5, modTime := 0, hasHash := true, hash := "h", deleted := false, isDir := false }

/-- The spec's listing example: records `a`, `a/b`, `a/b/c`. -/
def exDb : DB := [("a", recA), ("a/b", recAB), ("a/b/c", recABC)]

/-- A second tiny table for the listing witness. -/
def exDb2 : DB := [("x/y", recABC)]

/-- State for the emptiness-gate witness: directory row `g`, live file
row `g/f`, and an empty content directory `g`. -/
def stG : FsState :=
  { db := [("g", dirRecord 0),
           ("g/f", { size := 1, modTime := 0, hasHash := false, hash := "",
                     deleted := false, isDir := false })],
    cfs := { files := [], dirs := ["g"] } }

/-- State for the Rmdir-ordering witness: directory row `k`, live file
row `k/f`, and an empty content directory `k`. -/
def stK : FsState :=
  { db := [("k", dirRecord 0),
           ("k/f", { size := 2, modTime := 0, hasHash := false, hash := "",
                     deleted := false, isDir := false })],
    cfs := { files := [], dirs := ["k"] } }

/-! Helper lemmas about the store, the content filesystem and paths. -/

theorem dbGet_append (l m : DB) (p : String) :
    dbGet (l ++ m) p = match dbGet l p with | some r => some r | none => dbGet m p := by
  induction l with
  | nil => simp [dbGet]
  | cons e rest ih =>
      obtain ⟨q, r⟩ := e
      by_cases hq : q = p
      · simp [dbGet, hq]
      · simp [dbGet, hq, ih]

theorem dbGet_filter_ne (db : DB) (p : String) :
    dbGet (db.filter (fun e => decide (e.1 ≠ p))) p = none := by
  induction db with
  | nil => simp [dbGet]
  | cons e rest ih =>
      obtain ⟨q, r⟩ := e
      by_cases hq : q = p
      · simpa [List.filter_cons, hq] using ih
      · simpa [List.filter_cons, hq, dbGet] using ih

theorem dbGet_upsert_self (db : DB) (p : String) (r : FileRecord) :
    dbGet (dbUpsert db p r) p = some r := by
  unfold dbUpsert
  rw [dbGet_append, dbGet_filter_ne]
  simp [dbGet]

theorem dbGet_insertIgnore_preserve (db : DB) (p q : String) (rec r : FileRecord)
    (h : dbGet db q = some r) :
    dbGet (dbInsertIgnore db p rec) q = some r := by
  unfold dbInsertIgnore
  cases hp : dbGet db p with
  | some _ => exact h
  | none => rw [dbGet_append, h]

theorem dbGet_insertIgnore_isSome (db : DB) (p q : String) (rec : FileRecord)
    (h : (dbGet db q).isSome = true) :
    (dbGet (dbInsertIgnore db p rec) q).isSome = true := by
  cases hq : dbGet db q with
  | none => rw [hq] at h; simp at h
  | some r => rw [dbGet_insertIgnore_preserve db p q rec r hq]; rfl

theorem dbGet_insertIgnore_self (db : DB) (p : String) (rec : FileRecord) :
    (dbGet (dbInsertIgnore db p rec) p).isSome = true := by
  unfold dbInsertIgnore
  cases hp : dbGet db p with
  | some r => simp [hp]
  | none => rw [dbGet_append, hp]; simp [dbGet]

theorem insertDirsLoop_preserve (oracle : String → Bool) (now : Int)
    (parts : List String) (cur : String) (db : DB) (q : String) (r : FileRecord)
    (h : dbGet db q = some r) :
    dbGet (insertDirsLoop oracle now parts cur db).2 q = some r := by
  induction parts generalizing cur db with
  | nil => simpa [insertDirsLoop] using h
  | cons part rest ih =>
      by_cases hp : part = ""
      · simpa [insertDirsLoop, hp] using ih cur db h
      · by_cases ho : oracle (goJoin cur part)
        · simpa [insertDirsLoop, hp, ho] using h
        · simpa [insertDirsLoop, hp, ho] using
            ih (goJoin cur part) (dbInsertIgnore db (goJoin cur part) (dirRecord now))
              (dbGet_insertIgnore_preserve db (goJoin cur part) q (dirRecord now) r h)

theorem insertDirsLoop_isSome (oracle : String → Bool) (now : Int)
    (parts : List String) (cur : String) (db : DB) (q : String)
    (h : (dbGet db q).isSome = true) :
    (dbGet (insertDirsLoop oracle now parts cur db).2 q).isSome = true := by
  cases hq : dbGet db q with
  | none => rw [hq] at h; simp at h
  | some r => rw [insertDirsLoop_preserve oracle now parts cur db q r hq]; rfl

theorem insertDirsLoop_noFail (oracle : String → Bool) (now : Int)
    (parts : List String) (cur : String) (db : DB)
    (h : ∀ s, oracle s = false) :
    (insertDirsLoop oracle now parts cur db).1 = true := by
  induction parts generalizing cur db with
  | nil => simp [insertDirsLoop]
  | cons part rest ih =>
      by_cases hp : part = ""
      · simpa [insertDirsLoop, hp] using ih cur db
      · simp [insertDirsLoop, hp, h (goJoin cur part)]
        exact ih (goJoin cur part) _

theorem insertDirsLoop_chain (oracle : String → Bool) (now : Int)
    (parts : List String) (cur : String) (db : DB)
    (h : (insertDirsLoop oracle now parts cur db).1 = true) :
    ∀ q ∈ chainPaths parts cur,
      (dbGet (insertDirsLoop oracle now parts cur db).2 q).isSome = true := by
  induction parts generalizing cur db with
  | nil => simp [chainPaths]
  | cons part rest ih =>
      by_cases hp : part = ""
      · intro q hq
        rw [insertDirsLoop, if_pos hp]
        rw [insertDirsLoop, if_pos hp] at h
        exact ih cur db h q (by simpa [chainPaths, hp] using hq)
      · by_cases ho : oracle (goJoin cur part)
        · rw [insertDirsLoop, if_neg hp] at h
          simp [ho] at h
        · intro q hq
          rw [insertDirsLoop, if_neg hp] at h ⊢
          simp only [ho, if_neg] at h ⊢
          simp only [chainPaths, if_neg hp, List.mem_cons] at hq
          rcases hq with hq | hq
          · subst hq
            exact insertDirsLoop_isSome oracle now rest (goJoin cur part) _ _
              (dbGet_insertIgnore_self db (goJoin cur part) (dirRecord now))
          · exact ih (goJoin cur part) _ h q hq

theorem dbGet_setDeleted_self (db : DB) (p : String) (t : Int) :
    dbGet (dbSetDeleted db p t) p =
      (dbGet db p).map (fun r => { r with deleted := true, modTime := t }) := by
  induction db with
  | nil => simp [dbSetDeleted, dbGet]
  | cons e rest ih =>
      obtain ⟨q, r⟩ := e
      by_cases hq : q = p
      · subst hq
        have hstep : dbSetDeleted ((q, r) :: rest) q t =
            (q, { r with deleted := true, modTime := t }) :: dbSetDeleted rest q t := by
          simp [dbSetDeleted]
        rw [hstep]
        simp [dbGet]
      · have hstep : dbSetDeleted ((q, r) :: rest) p t = (q, r) :: dbSetDeleted rest p t := by
          simp [dbSetDeleted, hq]
        rw [hstep, dbGet, if_neg hq, ih, dbGet, if_neg hq]

theorem dbDeleteDirRow_cons_drop (q : String) (rr : FileRecord) (rest : DB)
    (hd : rr.isDir = true) :
    dbDeleteDirRow ((q, rr) :: rest) q = dbDeleteDirRow rest q := by
  simp [dbDeleteDirRow, List.filter_cons, hd]

theorem dbDeleteDirRow_cons_keep (q p : String) (rr : FileRecord) (rest : DB)
    (hk : (decide (q = p) && rr.isDir) = false) :
    dbDeleteDirRow ((q, rr) :: rest) p = (q, rr) :: dbDeleteDirRow rest p := by
  simp only [dbDeleteDirRow, List.filter_cons, hk, Bool.not_false, if_pos]

theorem dbGet_deleteDirRow (db : DB) (p : String) (r : FileRecord)
    (h : dbGet (dbDeleteDirRow db p) p = some r) :
    r.isDir = false := by
  induction db with
  | nil => simp [dbDeleteDirRow, dbGet] at h
  | cons e rest ih =>
      obtain ⟨q, rr⟩ := e
      by_cases hq : q = p
      · subst hq
        cases hd : rr.isDir with
        | true => exact ih (by rwa [dbDeleteDirRow_cons_drop q rr rest hd] at h)
        | false =>
            rw [dbDeleteDirRow_cons_keep q q rr rest (by simp [hd])] at h
            rw [dbGet, if_pos rfl] at h
            cases h
            exact hd
      · rw [dbDeleteDirRow_cons_keep q p rr rest (by simp [hq])] at h
        rw [dbGet, if_neg hq] at h
        exact ih h

theorem strData_append (a b : String) : (a ++ b).data = a.data ++ b.data := by
  cases a
  cases b
  rfl

theorem leadsChars_append_self (l t : List Char) : leadsChars l (l ++ t) = true := by
  induction l with
  | nil => rfl
  | cons a as ih => simp [leadsChars, ih]

theorem dropWhile_slash (l : List Char) (h : l.any (fun c => decide (c = '/')) = true) :
    ∃ tl, l.dropWhile (fun c => !(decide (c = '/'))) = '/' :: tl ∧
      l.takeWhile (fun c => !(decide (c = '/'))) ++ '/' :: tl = l := by
  induction l with
  | nil => simp at h
  | cons c cs ih =>
      by_cases hc : c = '/'
      · subst hc
        refine ⟨cs, ?_, ?_⟩
        · simp [List.dropWhile_cons]
        · simp [List.takeWhile_cons]
      · have hcs : cs.any (fun c => decide (c = '/')) = true := by
          simpa [List.any_cons, hc] using h
        obtain ⟨tl, hd, ht⟩ := ih hcs
        refine ⟨tl, ?_, ?_⟩
        · simpa [List.dropWhile_cons, hc] using hd
        · have hpred : (!decide (c = '/')) = true := by simp [hc]
          rw [List.takeWhile_cons, if_pos hpred, List.cons_append, ht]

theorem hasSlash_reverse (cs : List Char) : hasSlash cs.reverse = hasSlash cs := by
  simp [hasSlash, List.any_eq_true, List.mem_reverse]

theorem dirChars_split (cs : List Char) (h : hasSlash cs = true) :
    cs = dirChars cs ++ '/' :: (cs.reverse.takeWhile (fun c => !(decide (c = '/')))).reverse := by
  have hrev : cs.reverse.any (fun c => decide (c = '/')) = true := by
    have := hasSlash_reverse cs
    rw [hasSlash] at this
    rw [this]
    exact h
  obtain ⟨tl, hd, ht⟩ := dropWhile_slash cs.reverse hrev
  have hdc : dirChars cs = tl.reverse := by
    rw [dirChars, if_pos h, hd]
    simp
  have hcs : cs = (cs.reverse.takeWhile (fun c => !(decide (c = '/'))) ++ '/' :: tl).reverse := by
    rw [ht, List.reverse_reverse]
  rw [hdc]
  conv_lhs => rw [hcs]
  simp [List.reverse_append]

theorem strLeads_dirOf (p : String) (h : containsSlash p = true) :
    strLeads (dirOfStr p ++ "/") p = true := by
  show leadsChars (dirOfStr p ++ "/").data p.data = true
  have hdata : (dirOfStr p ++ "/").data = dirChars p.data ++ ['/'] := by
    rw [strData_append]
    rfl
  rw [hdata]
  obtain ⟨d, hd⟩ : ∃ d, dirChars p.data = d := ⟨_, rfl⟩
  have hsplit := dirChars_split p.data (by simpa [containsSlash] using h)
  rw [hd] at hsplit
  rw [hd, hsplit]
  have hassoc : d ++ '/' :: (p.data.reverse.takeWhile (fun c => !(decide (c = '/')))).reverse
      = (d ++ ['/']) ++ (p.data.reverse.takeWhile (fun c => !(decide (c = '/')))).reverse := by
    simp
  rw [hassoc]
  exact leadsChars_append_self _ _

theorem listFilterFilter {α : Type} (l : List α) (p q : α → Bool) :
    (l.filter p).filter q = l.filter (fun a => p a && q a) := by
  induction l with
  | nil => rfl
  | cons a as ih =>
      cases hp : p a with
      | true =>
          cases hq : q a with
          | true => simp [List.filter_cons, hp, hq, ih]
          | false => simp [List.filter_cons, hp, hq, ih]
      | false => simp [List.filter_cons, hp, ih]

theorem listFilterCongr {α : Type} (l : List α) (p q : α → Bool) (h : ∀ a ∈ l, p a = q a) :
    l.filter p = l.filter q := by
  induction l with
  | nil => rfl
  | cons a as ih =>
      rw [List.filter_cons, List.filter_cons, h a (List.mem_cons_self a as),
        ih (fun b hb => h b (List.mem_cons_of_mem a hb))]

theorem listFilterAll {α : Type} (l : List α) (p : α → Bool) (h : ∀ a ∈ l, p a = true) :
    l.filter p = l := by
  induction l with
  | nil => rfl
  | cons a as ih =>
      rw [List.filter_cons, h a (List.mem_cons_self a as)]
      simp only [if_pos]
      rw [ih (fun b hb => h b (List.mem_cons_of_mem a hb))]

theorem filter_length_pos_iff {α : Type} (l : List α) (p : α → Bool) :
    0 < (l.filter p).length ↔ ∃ a ∈ l, p a = true := by
  rw [List.length_pos]
  constructor
  · intro h
    match hm : l.filter p with
    | [] => exact absurd hm h
    | b :: bs =>
        have hb : b ∈ l.filter p := by rw [hm]; exact List.mem_cons_self b bs
        rw [List.mem_filter] at hb
        exact ⟨b, hb.1, hb.2⟩
  · rintro ⟨a, ha, hp⟩ hnil
    have hmem : a ∈ l.filter p := List.mem_filter.mpr ⟨ha, hp⟩
    rw [hnil] at hmem
    simp at hmem

theorem lookup_setFile_self (cfs : ContentFS) (p : String) (bs : List Nat) :
    lookupFile (setFile cfs p bs) p = some bs := by
  simp [lookupFile, setFile, List.find?]

theorem hasDir_dropDir (cfs : ContentFS) (p : String) :
    hasDir (dropDir cfs p) p = false := by
  simp [hasDir, dropDir, List.any_eq_true, List.mem_filter]

theorem NewObject_deleted (db : DB) (p : String) (r : FileRecord)
    (h : dbGet db p = some r) (hd : r.deleted = true) :
    NewObject db p = Except.error Err.objectNotFound := by
  simp [NewObject, h, hd]

theorem NewObject_live (db : DB) (p : String) (r : FileRecord)
    (h : dbGet db p = some r) (hd : r.deleted = false) (hi : r.isDir = false) :
    NewObject db p = Except.ok (recToObj p r) := by
  simp [NewObject, h, hd, hi]

theorem osRemove_emptyDir (st : FsState) (dir : String)
    (hd : hasDir st.cfs dir = true) (hf : lookupFile st.cfs dir = none)
    (hc : cfsHasChildren st.cfs dir = false) :
    osRemove st.cfs dir = RmOut.removed (dropDir st.cfs dir) := by
  simp [osRemove, hf, hd, hc]

theorem rmdirLiveCount (db : DB) (dir : String) :
    0 < (db.filter (fun e =>
      strLeads (dir ++ "/") e.1 && decide (e.1 ≠ dir) && !e.2.deleted)).length ↔
    ∃ e ∈ db, strLeads (dir ++ "/") e.1 = true ∧ e.1 ≠ dir ∧ e.2.deleted = false := by
  rw [filter_length_pos_iff]
  constructor
  · rintro ⟨a, ha, hp⟩
    rw [Bool.and_eq_true, Bool.and_eq_true] at hp
    refine ⟨a, ha, hp.1.1, ?_, ?_⟩
    · simpa using hp.1.2
    · simpa using hp.2
  · rintro ⟨a, ha, h1, h2, h3⟩
    exact ⟨a, ha, by simp [h1, h2, h3]⟩

/-- C8: when the content directory itself can be removed (it exists and
is empty), `Rmdir` fails with the not-empty error exactly when some
non-deleted row lies strictly under `dir + "/"`, and otherwise succeeds
leaving no directory row for `dir` in the store. -/
theorem c8_rmdir_emptiness_gate (st : FsState) (dir : String)
    (hd : hasDir st.cfs dir = true)
    (hf : lookupFile st.cfs dir = none)
    (hc : cfsHasChildren st.cfs dir = false) :
    ((∃ e ∈ st.db, strLeads (dir ++ "/") e.1 = true ∧ e.1 ≠ dir ∧ e.2.deleted = false) →
      (Rmdir st dir).res = Except.error Err.notEmpty) ∧
    ((¬∃ e ∈ st.db, strLeads (dir ++ "/") e.1 = true ∧ e.1 ≠ dir ∧ e.2.deleted = false) →
      (Rmdir st dir).res = Except.ok () ∧
      ∀ r, dbGet (Rmdir st dir).st.db dir = some r → r.isDir = false) := by
  have hrm := osRemove_emptyDir st dir hd hf hc
  constructor
  · intro hex
    have hcnt := (rmdirLiveCount st.db dir).mpr hex
    simp only [Rmdir, hrm]
    rw [if_pos hcnt]
  · intro hnex
    have hcnt : ¬0 < (st.db.filter (fun e =>
        strLeads (dir ++ "/") e.1 && decide (e.1 ≠ dir) && !e.2.deleted)).length :=
      fun hp => hnex ((rmdirLiveCount st.db dir).mp hp)
    simp only [Rmdir, hrm]
    rw [if_neg hcnt]
    exact ⟨rfl, fun r hr => dbGet_deleteDirRow st.db dir r hr⟩

/-- C8 witness: state `stG` (directory row `g`, live row `g/f`, empty
content directory `g`) satisfies the hypotheses, and the gate theorem
applies to it. -/
theorem c8_rmdir_emptiness_gate_witness :
    hasDir stG.cfs "g" = true ∧ lookupFile stG.cfs "g" = none ∧
    cfsHasChildren stG.cfs "g" = false ∧
    (((∃ e ∈ stG.db, strLeads ("g" ++ "/") e.1 = true ∧ e.1 ≠ "g" ∧ e.2.deleted = false) →
       (Rmdir stG "g").res = Except.error Err.notEmpty) ∧
     ((¬∃ e ∈ stG.db, strLeads ("g" ++ "/") e.1 = true ∧ e.1 ≠ "g" ∧ e.2.deleted = false) →
       (Rmdir stG "g").res = Except.ok () ∧
       ∀ r, dbGet (Rmdir stG "g").st.db "g" = some r → r.isDir = false)) :=
  ⟨by decide, by decide, by decide,
   c8_rmdir_emptiness_gate stG "g" (by decide) (by decide) (by decide)⟩

/-- C10: `Rmdir` removes the content-filesystem directory before the
metadata emptiness check, so a not-empty failure leaves the combined
state changed: the content directory is gone while the metadata table —
including the row for `dir` — is untouched. -/
theorem c10_rmdir_notempty_removes_content_dir (st : FsState) (dir : String)
    (hd : hasDir st.cfs dir = true)
    (hf : lookupFile st.cfs dir = none)
    (hc : cfsHasChildren st.cfs dir = false)
    (hx : ∃ e ∈ st.db, strLeads (dir ++ "/") e.1 = true ∧ e.1 ≠ dir ∧ e.2.deleted = false) :
    (Rmdir st dir).res = Except.error Err.notEmpty ∧
    (Rmdir st dir).st.db = st.db ∧
    hasDir (Rmdir st dir).st.cfs dir = false ∧
    (Rmdir st dir).st.cfs ≠ st.cfs := by
  have hrm := osRemove_emptyDir st dir hd hf hc
  have hcnt := (rmdirLiveCount st.db dir).mpr hx
  have hred : Rmdir st dir =
      { res := Except.error Err.notEmpty,
        st := { db := st.db, cfs := dropDir st.cfs dir }, wrote := false } := by
    simp only [Rmdir, hrm]
    rw [if_pos hcnt]
  rw [hred]
  refine ⟨rfl, rfl, hasDir_dropDir st.cfs dir, ?_⟩
  show dropDir st.cfs dir ≠ st.cfs
  intro heq
  have h4 := hasDir_dropDir st.cfs dir
  rw [heq, hd] at h4
  simp at h4

/-- C10 witness: state `stK` (directory row `k`, live row `k/f`, empty
content directory `k`) satisfies the hypotheses, and the ordering
theorem applies to it. -/
theorem c10_rmdir_notempty_removes_content_dir_witness :
    hasDir stK.cfs "k" = true ∧ lookupFile stK.cfs "k" = none ∧
    cfsHasChildren stK.cfs "k" = false ∧
    (∃ e ∈ stK.db, strLeads ("k" ++ "/") e.1 = true ∧ e.1 ≠ "k" ∧ e.2.deleted = false) ∧
    ((Rmdir stK "k").res = Except.error Err.notEmpty ∧
     (Rmdir stK "k").st.db = stK.db ∧
     hasDir (Rmdir stK "k").st.cfs "k" = false ∧
     (Rmdir stK "k").st.cfs ≠ stK.cfs) :=
  ⟨by decide, by decide, by decide, by decide,
   c10_rmdir_notempty_removes_content_dir stK "k" (by decide) (by decide) (by decide)
     (by decide)⟩

/-- C5: after `Object.Remove` on a path whose row exists, the lookup
(`NewObject`) reports not-found, the row is still stored with
`deleted = true` and reports size 0 through `Object.Size`, and a
zero-byte marker file sits at the path with the fixed `.delete`
suffix. -/
theorem c5_tombstone_round_trip (now : Int) (st : FsState) (o : Object) (r : FileRecord)
    (h : dbGet st.db o.remote = some r) :
    dbGet (Remove now st o).2.db o.remote =
      some { r with deleted := true, modTime := rfc3339Trunc now } ∧
    NewObject (Remove now st o).2.db o.remote = Except.error Err.objectNotFound ∧
    objSize (recToObj o.remote { r with deleted := true, modTime := rfc3339Trunc now }) = 0 ∧
    lookupFile (Remove now st o).2.cfs (o.remote ++ ".delete") = some [] ∧
    ((Remove now st o).1).deleted = true := by
  have hget : dbGet (Remove now st o).2.db o.remote =
      some { r with deleted := true, modTime := rfc3339Trunc now } := by
    show dbGet (dbSetDeleted st.db o.remote (rfc3339Trunc now)) o.remote = _
    rw [dbGet_setDeleted_self, h]
    rfl
  refine ⟨hget, ?_, rfl, ?_, rfl⟩
  · exact NewObject_deleted _ _ _ hget rfl
  · show lookupFile (setFile (eraseFile st.cfs o.remote) (o.remote ++ ".delete") []) _ = _
    exact lookup_setFile_self _ _ _

/-- C5 witness: the tombstone round-trip theorem applied to the concrete
state `stX` holding record `recX` at path `x`. -/
theorem c5_tombstone_round_trip_witness :
    dbGet stX.db oX.remote = some recX ∧
    (dbGet (Remove 5 stX oX).2.db oX.remote =
       some { recX with deleted := true, modTime := rfc3339Trunc 5 } ∧
     NewObject (Remove 5 stX oX).2.db oX.remote = Except.error Err.objectNotFound ∧
     objSize (recToObj oX.remote { recX with deleted := true, modTime := rfc3339Trunc 5 }) = 0 ∧
     lookupFile (Remove 5 stX oX).2.cfs (oX.remote ++ ".delete") = some [] ∧
     ((Remove 5 stX oX).1).deleted = true) :=
  ⟨by decide, c5_tombstone_round_trip 5 stX oX recX (by decide)⟩

/-- C7: `List` is exactly a one-level scope — for the root it returns the
non-deleted rows without a separator, for a non-empty `dir` the
non-deleted rows under the `dir + "/"` prefix whose `path.Dir` equals
`dir` exactly; on the records `a`, `a/b`, `a/b/c` it returns exactly
`a/b`, exactly `a/b/c`, and exactly `a` respectively. -/
theorem c7_listing_scope :
    (∀ db : DB, listDir db "" = db.filter (fun e => !containsSlash e.1 && !e.2.deleted)) ∧
    (∀ (db : DB) (dir : String), dir ≠ "" →
      listDir db dir = db.filter (fun e =>
        strLeads (dir ++ "/") e.1 && (!e.2.deleted && decide (dirOfStr e.1 = dir)))) ∧
    listDir exDb "a" = [("a/b", recAB)] ∧
    listDir exDb "a/b" = [("a/b/c", recABC)] ∧
    listDir exDb "" = [("a", recA)] := by
  refine ⟨?_, ?_, by decide, by decide, by decide⟩
  · intro db
    show (db.filter (fun e => !containsSlash e.1 && !e.2.deleted)).filter
        (fun e => decide (("" : String) = "") || decide (dirOfStr e.1 = "")) = _
    apply listFilterAll
    intro a _
    simp
  · intro db dir hdir
    simp only [listDir]
    rw [if_neg hdir]
    rw [listFilterFilter]
    apply listFilterCongr
    intro a _
    simp [hdir, Bool.and_assoc]

/-- C7 witness: the one-level characterization applied to the concrete
table `exDb2` and directory `x`. -/
theorem c7_listing_scope_witness :
    listDir exDb2 "x" = exDb2.filter (fun e =>
      strLeads ("x" ++ "/") e.1 && (!e.2.deleted && decide (dirOfStr e.1 = "x"))) :=
  c7_listing_scope.2.1 exDb2 "x" (by decide)

/-- C9 counterexample: in the `virtualfs.go` variant the insertions are
not one atomic unit — with the INSERT for `a/b` failing during
`ensureDirectoryStructure` of `a/b/c`, the call reports failure yet the
row for `a` inserted earlier in the same call remains committed. -/
theorem c9_materializer_not_atomic_cex :
    (ensureDirectoryStructureB failAB 0 [] "a/b/c").1 = false ∧
    dbGet (ensureDirectoryStructureB failAB 0 [] "a/b/c").2 "a" = some (dirRecord 0) := by
  decide

/-- C9 (amended): in the `part_000` variant the transaction makes the
call atomic — a failing INSERT leaves the table exactly as before the
call, and a successful call leaves a row for every ancestor path it
materializes. -/
theorem c9_materializer_tx_atomic (oracle : String → Bool) (now : Int)
    (db : DB) (remote : String) :
    ((ensureDirectoryStructure oracle now db remote).1 = false →
      (ensureDirectoryStructure oracle now db remote).2 = db) ∧
    ((ensureDirectoryStructure oracle now db remote).1 = true →
      ∀ q ∈ chainPaths (splitSlash (dirOfStr remote)) "",
        (dbGet (ensureDirectoryStructure oracle now db remote).2 q).isSome = true) := by
  cases hlp : insertDirsLoop oracle now (splitSlash (dirOfStr remote)) "" db with
  | mk b db1 =>
      cases b with
      | true =>
          constructor
          · intro hfalse
            simp only [ensureDirectoryStructure, hlp] at hfalse
            simp at hfalse
          · intro _ q hq
            have hsome := insertDirsLoop_chain oracle now (splitSlash (dirOfStr remote)) "" db
              (by rw [hlp]) q hq
            rw [hlp] at hsome
            simp only [ensureDirectoryStructure, hlp]
            simpa using hsome
      | false =>
          constructor
          · intro _
            simp [ensureDirectoryStructure, hlp]
          · intro htrue
            simp only [ensureDirectoryStructure, hlp] at htrue
            simp at htrue

/-- C9 witness: the transactional variant applied to the same failing
oracle leaves the table empty, exactly as before the call. -/
theorem c9_materializer_tx_atomic_witness :
    (ensureDirectoryStructure failAB 0 [] "a/b/c").1 = false ∧
    (ensureDirectoryStructure failAB 0 [] "a/b/c").2 = [] :=
  ⟨by decide, (c9_materializer_tx_atomic failAB 0 [] "a/b/c").1 (by decide)⟩

/-- C1: reconciliation is not idempotent as claimed.  At path `a` with a
sub-second modTime (1ns), the first `Put` writes content and the
immediately repeated identical `Put` writes content again, because the
row stores the modTime RFC3339-truncated to whole seconds and the
comparison then never sees it as equal; with a whole-second modTime the
second `Put` does skip and return the stored record's data with state
unchanged — while the `virtualfs.go` variant (`PutB`) streams content
even then. -/
theorem c1_put_not_idempotent_for_subsecond_modtime :
    (Put md5c noFail 0 emptySt srcSub streamA).wrote = true ∧
    (Put md5c noFail 0 (Put md5c noFail 0 emptySt srcSub streamA).st srcSub streamA).wrote
      = true ∧
    (Put md5c noFail 0 (Put md5c noFail 0 emptySt srcAligned streamA).st srcAligned
      streamA).wrote = false ∧
    (Put md5c noFail 0 (Put md5c noFail 0 emptySt srcAligned streamA).st srcAligned
      streamA).res =
      Except.ok { remote := "a", size := 3, modTime := 2000000000, hasHash := true,
                  hash := "#3", deleted := false, isDir := false } ∧
    (Put md5c noFail 0 (Put md5c noFail 0 emptySt srcAligned streamA).st srcAligned
      streamA).st = (Put md5c noFail 0 emptySt srcAligned streamA).st ∧
    (PutB md5c noFail 0 (Put md5c noFail 0 emptySt srcAligned streamA).st srcAligned
      streamA).wrote = true := by
  decide

/-- C2: the change-detection guard of `Object.Update` (`part_000`) is
inverted.  Against a stored object of equal size and equal supported
hash, a candidate whose modTime differs (20s vs 10s) is classified as
skip — no write, the state untouched, the old object returned — while a
candidate identical in size, hash and modTime is re-written. -/
theorem c2_update_skips_when_modtime_differs :
    srcInv.size = oInv.size ∧
    srcInv.srcHashVal = oInv.hash ∧
    srcInv.srcSupportsMD5 = true ∧
    srcInv.modTime ≠ oInv.modTime ∧
    (Update md5c noFail stInv oInv srcInv streamInv).wrote = false ∧
    (Update md5c noFail stInv oInv srcInv streamInv).res = Except.ok oInv ∧
    (Update md5c noFail stInv oInv srcInv streamInv).st = stInv ∧
    (Update md5c noFail stInv oInv srcSame streamInv).wrote = true := by
  decide

/-- C3: in the `virtualfs.go` variant the stored hash is the one the
source object reports, not the digest of the bytes streamed into the
content file.  With a source reporting `deadbeef` while the two bytes
actually written digest to `#2`, both `PutB` and `UpdateB` store
`deadbeef`; the `part_000` `Put` stores the digest of the written
bytes. -/
theorem c3_stored_hash_taken_from_source :
    md5c streamB.bytes = "#2" ∧
    (dbGet (PutB md5c noFail 0 emptySt srcRep streamB).st.db "b").map FileRecord.hash =
      some "deadbeef" ∧
    lookupFile (PutB md5c noFail 0 emptySt srcRep streamB).st.cfs "b" = some streamB.bytes ∧
    (dbGet (UpdateB md5c noFail stB oB srcRep streamB).st.db "b").map FileRecord.hash =
      some "deadbeef" ∧
    lookupFile (UpdateB md5c noFail stB oB srcRep streamB).st.cfs "b" = some streamB.bytes ∧
    (dbGet (Put md5c noFail 0 emptySt srcRep streamB).st.db "b").map FileRecord.hash =
      some (md5c streamB.bytes) ∧
    ("deadbeef" : String) ≠ "#2" := by
  decide

theorem putWrite_fail (md5 : List Nat → String) (oracle : String → Bool) (now : Int)
    (st : FsState) (src : SrcInfo) (stream : InStream) (hfail : stream.fail = true) :
    ((putWrite md5 oracle now st src stream).wrote = true →
      (putWrite md5 oracle now st src stream).res = Except.error Err.ioError) ∧
    ∀ rr, dbGet st.db src.remote = some rr →
      dbGet (putWrite md5 oracle now st src stream).st.db src.remote = some rr := by
  cases hlp : insertDirsLoop oracle now (splitSlash (dirOfStr src.remote)) "" st.db with
  | mk b db1 =>
      cases b with
      | false =>
          have hE : ensureDirectoryStructure oracle now st.db src.remote = (false, st.db) := by
            simp [ensureDirectoryStructure, hlp]
          constructor
          · intro hw
            simp [putWrite, hE] at hw
          · intro rr hrr
            simp only [putWrite, hE]
            exact hrr
      | true =>
          have hE : ensureDirectoryStructure oracle now st.db src.remote = (true, db1) := by
            simp [ensureDirectoryStructure, hlp]
          have hpre : ∀ rr, dbGet st.db src.remote = some rr →
              dbGet db1 src.remote = some rr := by
            intro rr hrr
            have h2 := insertDirsLoop_preserve oracle now
              (splitSlash (dirOfStr src.remote)) "" st.db src.remote rr hrr
            rw [hlp] at h2
            exact h2
          constructor
          · intro _
            simp [putWrite, hE, hfail]
          · intro rr hrr
            simp only [putWrite, hE, hfail]
            simpa using hpre rr hrr

theorem Put_cases (md5 : List Nat → String) (oracle : String → Bool) (now : Int)
    (st : FsState) (src : SrcInfo) (stream : InStream) :
    Put md5 oracle now st src stream = putWrite md5 oracle now st src stream ∨
    ((Put md5 oracle now st src stream).st = st ∧
     (Put md5 oracle now st src stream).wrote = false) := by
  cases hno : NewObject st.db src.remote with
  | error e =>
      by_cases he : e = Err.objectNotFound
      · left
        simp [Put, hno, he]
      · right
        constructor <;> simp [Put, hno, he]
  | ok existing =>
      cases hsw : putShouldWrite existing src with
      | true =>
          left
          simp [Put, hno, hsw]
      | false =>
          right
          constructor <;> simp [Put, hno, hsw]

theorem putB_fail (md5 : List Nat → String) (oracle : String → Bool) (now : Int)
    (st : FsState) (src : SrcInfo) (stream : InStream) (hfail : stream.fail = true) :
    ((PutB md5 oracle now st src stream).wrote = true →
      (PutB md5 oracle now st src stream).res = Except.error Err.ioError) ∧
    ∀ rr, dbGet st.db src.remote = some rr →
      dbGet (PutB md5 oracle now st src stream).st.db src.remote = some rr := by
  cases hlp : insertDirsLoop oracle now (splitSlash (dirOfStr src.remote)) "" st.db with
  | mk b db1 =>
      have hE : ensureDirectoryStructureB oracle now st.db src.remote = (b, db1) := by
        simp [ensureDirectoryStructureB, hlp]
      have hpre : ∀ rr, dbGet st.db src.remote = some rr →
          dbGet db1 src.remote = some rr := by
        intro rr hrr
        have h2 := insertDirsLoop_preserve oracle now
          (splitSlash (dirOfStr src.remote)) "" st.db src.remote rr hrr
        rw [hlp] at h2
        exact h2
      cases b with
      | false =>
          constructor
          · intro hw
            simp [PutB, hE] at hw
          · intro rr hrr
            simp only [PutB, hE]
            simpa using hpre rr hrr
      | true =>
          constructor
          · intro _
            simp [PutB, hE, hfail]
          · intro rr hrr
            simp only [PutB, hE, hfail]
            simpa using hpre rr hrr

theorem update_fail (md5 : List Nat → String) (oracle : String → Bool)
    (stu : FsState) (o : Object) (src : SrcInfo) (stream : InStream)
    (hfail : stream.fail = true) :
    ((Update md5 oracle stu o src stream).wrote = true →
      (Update md5 oracle stu o src stream).res = Except.error Err.ioError) ∧
    (Update md5 oracle stu o src stream).st.db = stu.db := by
  cases hsw : updateShouldWrite o src with
  | false =>
      constructor
      · intro hw
        simp [Update, hsw] at hw
      · simp [Update, hsw]
  | true =>
      constructor
      · intro _
        simp [Update, hsw, hfail]
      · simp [Update, hsw, hfail]

/-- C4: when the incoming stream fails during the copy, each of the three
write operations returns the I/O error without reaching its metadata
statement, so the row previously stored for the path is unchanged (for
`Object.Update`, the whole table is unchanged). -/
theorem c4_stream_failure_preserves_record
    (md5 : List Nat → String) (oracle : String → Bool) (now : Int)
    (st stu : FsState) (src : SrcInfo) (o : Object) (stream : InStream)
    (hfail : stream.fail = true) :
    ((Put md5 oracle now st src stream).wrote = true →
      (Put md5 oracle now st src stream).res = Except.error Err.ioError) ∧
    (∀ rr, dbGet st.db src.remote = some rr →
      dbGet (Put md5 oracle now st src stream).st.db src.remote = some rr) ∧
    ((Update md5 oracle stu o src stream).wrote = true →
      (Update md5 oracle stu o src stream).res = Except.error Err.ioError) ∧
    (Update md5 oracle stu o src stream).st.db = stu.db ∧
    ((PutB md5 oracle now st src stream).wrote = true →
      (PutB md5 oracle now st src stream).res = Except.error Err.ioError) ∧
    (∀ rr, dbGet st.db src.remote = some rr →
      dbGet (PutB md5 oracle now st src stream).st.db src.remote = some rr) := by
  have hpw := putWrite_fail md5 oracle now st src stream hfail
  have hub := update_fail md5 oracle stu o src stream hfail
  have hpb := putB_fail md5 oracle now st src stream hfail
  have hput : ((Put md5 oracle now st src stream).wrote = true →
      (Put md5 oracle now st src stream).res = Except.error Err.ioError) ∧
      ∀ rr, dbGet st.db src.remote = some rr →
        dbGet (Put md5 oracle now st src stream).st.db src.remote = some rr := by
    rcases Put_cases md5 oracle now st src stream with hPut | ⟨hst, hwf⟩
    · rw [hPut]
      exact hpw
    · constructor
      · intro hw
        rw [hwf] at hw
        simp at hw
      · intro rr hrr
        rw [hst]
        exact hrr
  exact ⟨hput.1, hput.2, hub.1, hub.2, hpb.1, hpb.2⟩

/-- C4 witness: a stream that fails after one byte, run against the
state holding `recW` at `w`: all three operations leave the row for `w`
(resp. the table) unchanged. -/
theorem c4_stream_failure_preserves_record_witness :
    streamFail.fail = true ∧
    dbGet stW.db srcW.remote = some recW ∧
    dbGet (Put md5c noFail 0 stW srcW streamFail).st.db srcW.remote = some recW ∧
    (Update md5c noFail stW oW srcW streamFail).st.db = stW.db ∧
    dbGet (PutB md5c noFail 0 stW srcW streamFail).st.db srcW.remote = some recW :=
  ⟨rfl, by decide,
   (c4_stream_failure_preserves_record md5c noFail 0 stW stW srcW oW streamFail rfl).2.1
     recW (by decide),
   (c4_stream_failure_preserves_record md5c noFail 0 stW stW srcW oW streamFail rfl).2.2.2.1,
   (c4_stream_failure_preserves_record md5c noFail 0 stW stW srcW oW streamFail
     rfl).2.2.2.2.2 recW (by decide)⟩

theorem putWrite_noFail_eq (md5 : List Nat → String) (oracle : String → Bool) (now : Int)
    (st : FsState) (src : SrcInfo) (stream : InStream) (db1 : DB)
    (hE : ensureDirectoryStructure oracle now st.db src.remote = (true, db1))
    (h3 : stream.fail = false) (h4 : oracle src.remote = false) :
    putWrite md5 oracle now st src stream =
      { res := Except.ok { remote := src.remote, size := (stream.bytes.length : Int),
                            modTime := src.modTime, hasHash := decide (md5 stream.bytes ≠ ""),
                            hash := md5 stream.bytes, deleted := false, isDir := false },
        st := { db := dbUpsert db1 src.remote (putNewRecord md5 src stream),
                cfs := setFile (mkdirAll st.cfs (dirOfStr src.remote)) src.remote stream.bytes },
        wrote := true } := by
  simp [putWrite, hE, h3, h4, putNewRecord]

/-- C6: reconciling new content at a tombstoned path via `Put` goes down
the create path (the tombstoned row reads as not-found), stores a row
with `deleted = false` carrying the new size, the new single-pass
digest, and the new modTime at the store's RFC3339 second precision, and
the path becomes visible again both to `NewObject` and in the listing of
its parent directory. -/
theorem c6_resurrection (md5 : List Nat → String) (oracle : String → Bool) (now : Int)
    (st : FsState) (src : SrcInfo) (stream : InStream) (r : FileRecord)
    (h1 : dbGet st.db src.remote = some r)
    (h2 : r.deleted = true)
    (h3 : stream.fail = false)
    (h4 : ∀ s, oracle s = false)
    (h5 : containsSlash src.remote = true → dirOfStr src.remote ≠ "") :
    (Put md5 oracle now st src stream).res =
      Except.ok { remote := src.remote, size := (stream.bytes.length : Int),
                  modTime := src.modTime, hasHash := decide (md5 stream.bytes ≠ ""),
                  hash := md5 stream.bytes, deleted := false, isDir := false } ∧
    dbGet (Put md5 oracle now st src stream).st.db src.remote =
      some (putNewRecord md5 src stream) ∧
    NewObject (Put md5 oracle now st src stream).st.db src.remote =
      Except.ok (recToObj src.remote (putNewRecord md5 src stream)) ∧
    (src.remote, putNewRecord md5 src stream) ∈
      listDir (Put md5 oracle now st src stream).st.db (listParent src.remote) := by
  have hno : NewObject st.db src.remote = Except.error Err.objectNotFound :=
    NewObject_deleted st.db src.remote r h1 h2
  have hPut : Put md5 oracle now st src stream = putWrite md5 oracle now st src stream := by
    simp [Put, hno]
  cases hlp : insertDirsLoop oracle now (splitSlash (dirOfStr src.remote)) "" st.db with
  | mk b db1 =>
      have hb : b = true := by
        have h6 := insertDirsLoop_noFail oracle now
          (splitSlash (dirOfStr src.remote)) "" st.db h4
        rw [hlp] at h6
        exact h6
      subst hb
      have hE : ensureDirectoryStructure oracle now st.db src.remote = (true, db1) := by
        simp [ensureDirectoryStructure, hlp]
      have hPW := putWrite_noFail_eq md5 oracle now st src stream db1 hE h3 (h4 src.remote)
      rw [hPut, hPW]
      have hget : dbGet (dbUpsert db1 src.remote (putNewRecord md5 src stream)) src.remote =
          some (putNewRecord md5 src stream) := dbGet_upsert_self db1 src.remote _
      have hmem : (src.remote, putNewRecord md5 src stream) ∈
          dbUpsert db1 src.remote (putNewRecord md5 src stream) := by
        unfold dbUpsert
        exact List.mem_append_right _ (List.mem_singleton.mpr rfl)
      refine ⟨rfl, hget, NewObject_live _ _ _ hget rfl rfl, ?_⟩
      show (src.remote, putNewRecord md5 src stream) ∈
        listDir (dbUpsert db1 src.remote (putNewRecord md5 src stream)) (listParent src.remote)
      cases hcs : containsSlash src.remote with
      | true =>
          have hne := h5 hcs
          have hlp2 : listParent src.remote = dirOfStr src.remote := by
            simp [listParent, hcs]
          rw [hlp2]
          simp only [listDir]
          rw [if_neg hne]
          refine List.mem_filter.mpr ⟨List.mem_filter.mpr ⟨hmem, ?_⟩, ?_⟩
          · simp [strLeads_dirOf src.remote hcs, putNewRecord]
          · simp
      | false =>
          have hlp2 : listParent src.remote = "" := by
            simp [listParent, hcs]
          rw [hlp2]
          simp only [listDir, if_true]
          refine List.mem_filter.mpr ⟨List.mem_filter.mpr ⟨hmem, ?_⟩, ?_⟩
          · simp [hcs, putNewRecord]
          · simp

/-- C6 witness: the resurrection theorem applied to the tombstoned row
`recT` at `t/u` with fresh two-byte content. -/
theorem c6_resurrection_witness :
    dbGet stT.db srcT.remote = some recT ∧
    recT.deleted = true ∧
    streamT.fail = false ∧
    ((Put md5c noFail 0 stT srcT streamT).res =
       Except.ok { remote := srcT.remote, size := (streamT.bytes.length : Int),
                   modTime := srcT.modTime, hasHash := decide (md5c streamT.bytes ≠ ""),
                   hash := md5c streamT.bytes, deleted := false, isDir := false } ∧
     dbGet (Put md5c noFail 0 stT srcT streamT).st.db srcT.remote =
       some (putNewRecord md5c srcT streamT) ∧
     NewObject (Put md5c noFail 0 stT srcT streamT).st.db srcT.remote =
       Except.ok (recToObj srcT.remote (putNewRecord md5c srcT streamT)) ∧
     (srcT.remote, putNewRecord md5c srcT streamT) ∈
       listDir (Put md5c noFail 0 stT srcT streamT).st.db (listParent srcT.remote)) :=
  ⟨by decide, by decide, by decide,
   c6_resurrection md5c noFail 0 stT srcT streamT recT (by decide) (by decide) (by decide)
     (fun _ => rfl) (fun _ => by decide)⟩
